import Mathlib

/-!
Verification of the beam-profiler acquisition/processing/fit pipeline
(source: beam_profiler_v1.2.py).

The source is shallowly embedded: frames are row-major lists of lists of
integers (the camera delivers 8-bit monochrome samples converted to int),
float-valued quantities are modelled over ℚ (exactly representable data
movement and arithmetic) except the exposure curve, which needs a real
power and is modelled over ℝ.  The scipy optimizer (curve_fit) and the
transcendental exp are external to the repository and are therefore
parameters of the embedded calc_waists / gaussian functions; every other
operation is translated directly from the named source lines.
-/

namespace BeamProfiler

/-- A camera frame: a row-major 2-D array of integer intensity samples
(get_image returns the sensor data cast to int, source line 111). -/
abbrev Frame := List (List ℤ)

/-- np.roll(a, 1) on a 1-D array: the last element wraps around to the
front and every other element shifts back by one. -/
def np_roll1 {α : Type} (l : List α) : List α :=
  match l.reverse with
  | [] => []
  | x :: r => x :: r.reverse

/-- History-buffer push, source lines 396-399: the buffer is rolled by one
and the front slot is overwritten with the new value
(a = np.roll(a, 1); a[0] = v). -/
def pushWaist {α : Type} (buf : List α) (v : α) : List α :=
  (np_roll1 buf).set 0 v

/-- AOI_rect, source lines 113-119: the mutable area-of-interest rectangle.
The fields hold the matplotlib axis limits, which are floats (ℚ here). -/
structure AOI_rect where
  xmin : ℚ
  xmax : ℚ
  ymin : ℚ
  ymax : ℚ

/-- Initial AOI values set in AOI_rect.__init__ (full 1280×1024 sensor). -/
def AOI_rect.init : AOI_rect :=
  { xmin := 0, xmax := 1280, ymin := 0, ymax := 1024 }

/-- On_set_AOI, source lines 249-251: copies the current zoom-window axis
limits into the shared AOI rectangle.  No validation of any kind is
performed; the previous rectangle is discarded unconditionally. -/
def On_set_AOI (xlim ylim : ℚ × ℚ) (_prev : AOI_rect) : AOI_rect :=
  { xmin := xlim.1, xmax := xlim.2, ymin := ylim.1, ymax := ylim.2 }

/-- On_reset_AOI, source lines 241-247: restores the full-sensor AOI. -/
def On_reset_AOI (_prev : AOI_rect) : AOI_rect :=
  { xmin := 0, xmax := 1280, ymin := 0, ymax := 1024 }

/-- Elementwise frame difference, source line 313
(self.cam.get_image() - self.backgroundImage): plain integer
subtraction, no clamping of negative results. -/
def subtractBackground (raw bg : Frame) : Frame :=
  List.zipWith (fun r b => List.zipWith (fun x y => x - y) r b) raw bg

/-- Elementwise frame sum, source line 211
(self.imdata_full + self.backgroundImage). -/
def addBackground (full bg : Frame) : Frame :=
  List.zipWith (fun r b => List.zipWith (fun x y => x + y) r b) full bg

/-- AOI crop, source line 317:
imdata_full[int(ymin):int(ymax), int(xmin):int(xmax)].  Python slice
semantics: drop the first ymin rows, keep the next ymax - ymin, then the
same on columns. -/
def crop (f : Frame) (ymin ymax xmin xmax : ℕ) : Frame :=
  ((f.drop ymin).take (ymax - ymin)).map
    (fun row => (row.drop xmin).take (xmax - xmin))

/-- np.sum(·, axis=1): sum across each row (the vertical projection /
ydata); length equals the number of rows. -/
def sumAxis1 (f : Frame) : List ℤ :=
  f.map (fun row => row.sum)

/-- np.sum(·, axis=0): sum down each column (the horizontal projection /
xdata); length equals the row width of the (rectangular) array. -/
def sumAxis0 (f : Frame) : List ℤ :=
  match f with
  | [] => []
  | r :: _ => (List.range r.length).map (fun i => (f.map (fun row => row.getD i 0)).sum)

/-- ndarray.max() of a 1-D array (numpy raises on an empty array; the
default is never reached on the inputs the program produces). -/
def npMax {α : Type} [LinearOrder α] (dflt : α) (l : List α) : α :=
  match l with
  | [] => dflt
  | x :: xs => xs.foldl max x

/-- Tail of np.argmax: scans with current index, best index and best
value; a strictly greater value updates, so the first occurrence of the
maximum wins (numpy semantics). -/
def argmaxGo : List ℤ → ℕ → ℕ → ℤ → ℕ
  | [], _, best, _ => best
  | x :: xs, i, best, bv =>
      if bv < x then argmaxGo xs (i + 1) i x else argmaxGo xs (i + 1) best bv

/-- np.argmax of a (flattened, row-major) array: index of the first
occurrence of the maximum. -/
def np_argmax (l : List ℤ) : ℕ :=
  match l with
  | [] => 0
  | x :: xs => argmaxGo xs 1 0 x

/-- Row width used by np.unravel_index on imdata.shape = (rows, cols). -/
def imWidth (f : Frame) : ℕ := (f.getD 0 []).length

/-- Row index of the global argmax pixel, source lines 265-267
(np.unravel_index(np.argmax(imdata), imdata.shape)). -/
def maxYIndex (f : Frame) : ℕ := np_argmax f.flatten / imWidth f

/-- Column index of the global argmax pixel, source lines 265-267. -/
def maxXIndex (f : Frame) : ℕ := np_argmax f.flatten % imWidth f

/-- get1DIntensity(self, 'h'), source lines 263-274: the single row of
imdata through the global-maximum pixel. -/
def get1DIntensity_h (f : Frame) : List ℤ := f.getD (maxYIndex f) []

/-- get1DIntensity(self, 'v'), source lines 263-274: the single column of
imdata through the global-maximum pixel. -/
def get1DIntensity_v (f : Frame) : List ℤ :=
  f.map (fun row => row.getD (maxXIndex f) 0)

/-- Display rescaling of a projection, source lines 326-330
(vint *= 255/vint.max() on float64 data).  The code performs the
division unconditionally; none records the case max = 0, where numpy
evaluates 255/0 as inf and the products become nan/inf. -/
def normalize255 (l : List ℚ) : Option (List ℚ) :=
  let m := npMax 0 l
  if m = 0 then none else some (l.map (fun x => x * (255 / m)))

/-- Data published by one iteration of the capture loop,
source lines 312-335. -/
structure Snapshot where
  imdata_full : Frame
  imdata : Frame
  hdata : List ℤ
  vdata : List ℤ
  hint : Option (List ℚ)
  vint : Option (List ℚ)

/-- One iteration of the while-loop body, source lines 312-335: subtract
the background from the raw frame, crop the residual to the AOI (bounds
already truncated to ℕ by int()), extract the argmax row/column curves,
and rescale the two summed projections for the overlay. -/
def captureCycle (raw bg : Frame) (ymin ymax xmin xmax : ℕ) : Snapshot :=
  let full := subtractBackground raw bg
  let im := crop full ymin ymax xmin xmax
  { imdata_full := full
    imdata := im
    hdata := get1DIntensity_h im
    vdata := get1DIntensity_v im
    hint := normalize255 ((sumAxis0 im).map (fun z => (z : ℚ)))
    vint := normalize255 ((sumAxis1 im).map (fun z => (z : ℚ))) }

/-- Fit parameters (a, x0, b, wx) returned by curve_fit for the model of
source lines 359-361. -/
structure FitParams where
  a : ℚ
  x0 : ℚ
  b : ℚ
  w : ℚ

/-- gaussian, source lines 359-361: a = np.abs(a);
a * exp(-2*((x - x0)/wx)**2) + b.  exp is transcendental and external to
the repository, so it is passed in as gexp. -/
def gaussian (gexp : ℚ → ℚ) (x a x0 b w : ℚ) : ℚ :=
  |a| * gexp (-2 * ((x - x0) / w) ^ 2) + b

/-- The state calc_waists mutates: the two 20-slot waist histories, the
two fit-overlay curves and the waist read-out (the pair of physical
waists shown in the text box, source line 401-402). -/
structure WaistState where
  waistListX : List ℚ
  waistListY : List ℚ
  hintfit : List ℚ
  vintfit : List ℚ
  waistText : Option (ℚ × ℚ)

/-- pixel_size, source line 394: 5.2e-3 mm per pixel. -/
def pixel_size : ℚ := 5.2e-3

/-- Initial guess tuple p0 = (data.max(), data.argmax(), 0, span/5),
source lines 371-372. -/
abbrev Guess := ℤ × ℕ × ℚ × ℚ

/-- calc_waists, source lines 363-405.  The whole body runs under
try/except: the only failing steps are the two scipy curve_fit calls
(modelled by the external oracle curve_fit, which receives the projection
and the initial guess); if either fails the exception handler leaves the
state untouched.  On success the overlays, both histories and the waist
read-out are updated, the reported waist being |w| scaled by
pixel_size. -/
def calc_waists (gexp : ℚ → ℚ)
    (curve_fit : List ℤ → Guess → Except Unit FitParams)
    (imdata : Frame) (aoi : AOI_rect) (st : WaistState) : WaistState :=
  match curve_fit (sumAxis0 imdata)
          (npMax 0 (sumAxis0 imdata), np_argmax (sumAxis0 imdata), 0,
            (aoi.xmax - aoi.xmin) / 5),
        curve_fit (sumAxis1 imdata)
          (npMax 0 (sumAxis1 imdata), np_argmax (sumAxis1 imdata), 0,
            (aoi.ymax - aoi.ymin) / 5) with
  | Except.ok px, Except.ok py =>
      let hfit := (List.range (sumAxis0 imdata).length).map
        (fun i => gaussian gexp i px.a px.x0 px.b px.w)
      let vfit := (List.range (sumAxis1 imdata).length).map
        (fun i => gaussian gexp i py.a py.x0 py.b py.w)
      { waistListX := pushWaist st.waistListX (|px.w| * pixel_size)
        waistListY := pushWaist st.waistListY (|py.w| * pixel_size)
        hintfit := hfit.map (fun v => v * (255 / npMax 0 hfit))
        vintfit := vfit.map (fun v => v * (255 / npMax 0 vfit))
        waistText := some (|px.w| * pixel_size, |py.w| * pixel_size) }
  | _, _ => st

/-- astype(np.uint8) on an integer sample: reduction mod 256. -/
def toUint8 (z : ℤ) : ℕ := (z % 256).toNat

/-- saveFileDialog, source lines 206-221, reduced to the images written:
the main file receives (imdata_full + backgroundImage).astype(uint8)
(backgroundImage is the scalar 0 when none was recorded); when a
background frame was recorded
(type(self.backgroundImage) != type(0)) a second file with suffix -bg is
written, but the code calls img.save on it, so it receives the same main
image again, not the constructed background image. -/
def saveFileDialog (imdata_full : Frame) (background : Option Frame) :
    List (List ℕ) × Option (List (List ℕ)) :=
  match background with
  | none => (imdata_full.map (fun r => r.map toUint8), none)
  | some bg =>
      let img := (addBackground imdata_full bg).map (fun r => r.map toUint8)
      (img, some img)

/-- On_exposure_change, source lines 237-239:
new_exposure = 0.037 * 10 ** (slider_value / 23) (true division, float);
the result in ms is forwarded to the camera. -/
noncomputable def On_exposure_change (control : ℕ) : ℝ :=
  0.037 * (10 : ℝ) ^ ((control : ℝ) / 23)

/-! Helper lemmas about the embedded list operations. -/

theorem zipWith_getD {α β γ : Type} (f : α → β → γ) (d1 : α) (d2 : β) (d3 : γ) :
    ∀ (l1 : List α) (l2 : List β) (i : ℕ), i < l1.length → i < l2.length →
      (List.zipWith f l1 l2).getD i d3 = f (l1.getD i d1) (l2.getD i d2) := by
  intro l1
  induction l1 with
  | nil => intro l2 i h1 _; simp at h1
  | cons a t ih =>
    intro l2 i h1 h2
    cases l2 with
    | nil => simp at h2
    | cons b s =>
      cases i with
      | zero => rfl
      | succ j =>
        have := ih s j (by simpa using h1) (by simpa using h2)
        simpa using this

theorem pushWaist_eq_cons_dropLast {α : Type} (buf : List α) (v : α) (h : buf ≠ []) :
    pushWaist buf v = v :: buf.dropLast := by
  obtain ⟨x, r, hrev⟩ : ∃ x r, buf.reverse = x :: r := by
    cases hb : buf.reverse with
    | nil =>
      exact absurd (by simpa using congrArg List.reverse hb) h
    | cons x r => exact ⟨x, r, rfl⟩
  have hbuf : buf = r.reverse ++ [x] := by
    simpa using congrArg List.reverse hrev
  unfold pushWaist np_roll1
  rw [hrev]
  rw [hbuf, List.dropLast_concat]
  rfl

theorem pushWaist_length {α : Type} (buf : List α) (v : α) :
    (pushWaist buf v).length = buf.length := by
  unfold pushWaist np_roll1
  cases hb : buf.reverse with
  | nil =>
    have : buf = [] := by simpa using congrArg List.reverse hb
    simp [this]
  | cons x r =>
    have hbuf : buf = r.reverse ++ [x] := by
      simpa using congrArg List.reverse hb
    rw [List.length_set]
    simp [hbuf]

theorem init_le_foldl_max (l : List ℤ) : ∀ a : ℤ, a ≤ List.foldl max a l := by
  induction l with
  | nil => intro a; simp
  | cons x t ih =>
    intro a
    calc a ≤ max a x := le_max_left a x
    _ ≤ List.foldl max (max a x) t := ih (max a x)

theorem mem_le_foldl_max (l : List ℤ) :
    ∀ (a y : ℤ), y ∈ l → y ≤ List.foldl max a l := by
  induction l with
  | nil => intro a y hy; simp at hy
  | cons x t ih =>
    intro a y hy
    rcases List.mem_cons.mp hy with rfl | hyt
    · calc y ≤ max a y := le_max_right a y
      _ ≤ List.foldl max (max a y) t := init_le_foldl_max t (max a y)
    · exact ih (max a x) y hyt

theorem le_npMax (l : List ℤ) (y : ℤ) (hy : y ∈ l) : y ≤ npMax 0 l := by
  cases l with
  | nil => simp at hy
  | cons x t =>
    rcases List.mem_cons.mp hy with rfl | hyt
    · exact init_le_foldl_max t y
    · exact mem_le_foldl_max t x y hyt

theorem argmaxGo_spec (xs : List ℤ) : ∀ (i best : ℕ) (bv : ℤ),
    (argmaxGo xs i best bv = best ∧ List.foldl max bv xs = bv) ∨
    (∃ j, j < xs.length ∧ argmaxGo xs i best bv = i + j ∧
      xs.getD j 0 = List.foldl max bv xs) := by
  induction xs with
  | nil => intro i best bv; exact Or.inl ⟨rfl, rfl⟩
  | cons x t ih =>
    intro i best bv
    by_cases hx : bv < x
    · have hmax : max bv x = x := max_eq_right (le_of_lt hx)
      rcases ih (i + 1) i x with ⟨heq, hfold⟩ | ⟨j, hj, heq, hval⟩
      · refine Or.inr ⟨0, by simp, ?_, ?_⟩
        · simpa [argmaxGo, hx] using heq
        · simp [hmax, hfold]
      · refine Or.inr ⟨j + 1, by simpa using hj, ?_, ?_⟩
        · simp [argmaxGo, hx, heq]; omega
        · simpa [hmax] using hval
    · have hmax : max bv x = bv := max_eq_left (not_lt.mp hx)
      rcases ih (i + 1) best bv with ⟨heq, hfold⟩ | ⟨j, hj, heq, hval⟩
      · refine Or.inl ⟨by simpa [argmaxGo, hx] using heq, ?_⟩
        simpa [hmax] using hfold
      · refine Or.inr ⟨j + 1, by simpa using hj, ?_, ?_⟩
        · simp [argmaxGo, hx, heq]; omega
        · simpa [hmax] using hval

theorem np_argmax_spec (l : List ℤ) (h : l ≠ []) :
    np_argmax l < l.length ∧ l.getD (np_argmax l) 0 = npMax 0 l := by
  cases l with
  | nil => exact absurd rfl h
  | cons x xs =>
    rcases argmaxGo_spec xs 1 0 x with ⟨heq, hfold⟩ | ⟨j, hj, heq, hval⟩
    · constructor
      · simp [np_argmax, heq]
      · simp [np_argmax, npMax, heq, hfold]
    · constructor
      · simp only [np_argmax, heq, List.length_cons]; omega
      · have h1j : 1 + j = j + 1 := by omega
        simp only [np_argmax, npMax, heq, h1j, List.getD_cons_succ]
        exact hval

theorem flatten_length_rect (W : ℕ) :
    ∀ (f : Frame), (∀ r ∈ f, r.length = W) → f.flatten.length = W * f.length := by
  intro f
  induction f with
  | nil => intro _; simp
  | cons r t ih =>
    intro h
    have hr : r.length = W := h r (by simp)
    have ht := ih (fun s hs => h s (by simp [hs]))
    simp only [List.flatten_cons, List.length_append, List.length_cons, ht, hr,
      Nat.mul_succ]
    omega

theorem flatten_getD (W : ℕ) (hW : 0 < W) :
    ∀ (f : Frame), (∀ r ∈ f, r.length = W) →
    ∀ i, i < W * f.length →
    f.flatten.getD i 0 = (f.getD (i / W) []).getD (i % W) 0 := by
  intro f
  induction f with
  | nil => intro _ i hi; simp at hi
  | cons r t ih =>
    intro hrect i hi
    have hr : r.length = W := hrect r (by simp)
    by_cases hiW : i < W
    · have hidiv : i / W = 0 := Nat.div_eq_of_lt hiW
      have himod : i % W = i := Nat.mod_eq_of_lt hiW
      rw [List.flatten_cons, List.getD_append _ _ _ _ (by omega), hidiv, himod,
        List.getD_cons_zero]
    · push_neg at hiW
      have hsub : i - W < W * t.length := by
        simp only [List.length_cons, Nat.mul_add, Nat.mul_one] at hi
        omega
      have hstep := ih (fun s hs => hrect s (by simp [hs])) (i - W) hsub
      have hidx : i = (i - W) + W := by omega
      have hdiv : i / W = (i - W) / W + 1 := by
        conv_lhs => rw [hidx]
        rw [Nat.add_div_right _ hW]
      have hmod : i % W = (i - W) % W := by
        conv_lhs => rw [hidx]
        rw [Nat.add_mod_right]
      rw [List.flatten_cons, List.getD_append_right _ _ _ _ (by omega), hr, hstep,
        hdiv, hmod, List.getD_cons_succ]

theorem crop_length (f : Frame) (ymin ymax xmin xmax : ℕ)
    (hy : ymax ≤ f.length) :
    (crop f ymin ymax xmin xmax).length = ymax - ymin := by
  unfold crop
  simp only [List.length_map, List.length_take, List.length_drop]
  omega

theorem crop_row_length (f : Frame) (W ymin ymax xmin xmax : ℕ)
    (hrect : ∀ r ∈ f, r.length = W) (hx : xmax ≤ W) :
    ∀ r ∈ crop f ymin ymax xmin xmax, r.length = xmax - xmin := by
  intro r hr
  unfold crop at hr
  obtain ⟨row, hrow, rfl⟩ := List.mem_map.mp hr
  have hmem : row ∈ f := List.mem_of_mem_drop (List.mem_of_mem_take hrow)
  have hlen := hrect row hmem
  simp only [List.length_take, List.length_drop, hlen]
  omega

theorem sumAxis0_length (f : Frame) (W : ℕ) (hne : f ≠ [])
    (hrect : ∀ r ∈ f, r.length = W) :
    (sumAxis0 f).length = W := by
  cases f with
  | nil => exact absurd rfl hne
  | cons r t => simp [sumAxis0, hrect r (by simp)]

theorem sumAxis1_length (f : Frame) : (sumAxis1 f).length = f.length := by
  simp [sumAxis1]

/-! Claim theorems. -/

/-- C1: for frames of identical sensor shape, each entry of the per-cycle
full residual frame is the plain integer difference of the raw frame and
the background at that pixel — over ℤ, so negative results are kept, not
clamped — and the cropped view is obtained from this full residual
afterwards (subtraction happens before cropping). -/
theorem fullResidual_eq_sub (raw bg : Frame) (ymin ymax xmin xmax : ℕ) (i j : ℕ)
    (hlen : bg.length = raw.length)
    (hrows : ∀ k, k < raw.length → (bg.getD k []).length = (raw.getD k []).length)
    (hi : i < raw.length) (hj : j < (raw.getD i []).length) :
    ((captureCycle raw bg ymin ymax xmin xmax).imdata_full.getD i []).getD j 0
      = (raw.getD i []).getD j 0 - (bg.getD i []).getD j 0 ∧
    (captureCycle raw bg ymin ymax xmin xmax).imdata
      = crop (captureCycle raw bg ymin ymax xmin xmax).imdata_full ymin ymax xmin xmax := by
  refine ⟨?_, rfl⟩
  have hfull : (captureCycle raw bg ymin ymax xmin xmax).imdata_full
      = subtractBackground raw bg := rfl
  rw [hfull]
  unfold subtractBackground
  rw [zipWith_getD _ ([] : List ℤ) ([] : List ℤ) ([] : List ℤ) raw bg i hi (by omega)]
  exact zipWith_getD _ (0 : ℤ) (0 : ℤ) (0 : ℤ) _ _ j hj (by rw [hrows i hi]; exact hj)

/-- Witness for C1 at a concrete input: raw frame [[1]], background [[3]];
the residual entry is 1 - 3 = -2, a negative value kept unclamped. -/
theorem fullResidual_eq_sub_witness :
    (((captureCycle [[1]] [[3]] 0 1 0 1).imdata_full.getD 0 []).getD 0 0
        = (([[1]] : Frame).getD 0 []).getD 0 0 - (([[3]] : Frame).getD 0 []).getD 0 0 ∧
      (captureCycle [[1]] [[3]] 0 1 0 1).imdata
        = crop (captureCycle [[1]] [[3]] 0 1 0 1).imdata_full 0 1 0 1) ∧
    ((captureCycle [[1]] [[3]] 0 1 0 1).imdata_full.getD 0 []).getD 0 0 = -2 := by
  refine ⟨fullResidual_eq_sub [[1]] [[3]] 0 1 0 1 0 0 rfl ?_ (by decide) (by decide), by decide⟩
  intro k hk
  have hk0 : k = 0 := by
    simpa using hk
  subst hk0
  rfl

/-- C2: the history-buffer push inserts the newest value at index 0 and
shifts the rest back, discarding the last entry, and preserves the buffer
length; pushing the 25 sequential values 1..25 into the zero-initialised
capacity-20 buffer leaves exactly [25, 24, ..., 6], newest first. -/
theorem waistHistory_push_spec :
    (∀ (buf : List ℚ) (v : ℚ), buf ≠ [] →
      pushWaist buf v = v :: buf.dropLast ∧ (pushWaist buf v).length = buf.length) ∧
    List.foldl pushWaist (List.replicate 20 (0 : ℚ))
      [1, 2, 3, 4, 5, 6, 7, 8, 9, 10, 11, 12, 13, 14, 15, 16, 17, 18, 19, 20,
        21, 22, 23, 24, 25]
      = [25, 24, 23, 22, 21, 20, 19, 18, 17, 16, 15, 14, 13, 12, 11, 10, 9, 8, 7, 6] := by
  refine ⟨fun buf v h => ⟨pushWaist_eq_cons_dropLast buf v h, pushWaist_length buf v⟩, ?_⟩
  rfl

/-- Witness for C2 at a concrete buffer: pushing 9 onto [1, 2, 3]. -/
theorem waistHistory_push_spec_witness :
    pushWaist [(1 : ℚ), 2, 3] 9 = 9 :: [(1 : ℚ), 2, 3].dropLast ∧
    (pushWaist [(1 : ℚ), 2, 3] 9).length = ([(1 : ℚ), 2, 3] : List ℚ).length :=
  waistHistory_push_spec.1 [1, 2, 3] 9 (by simp)

/-- C3: calc_waists runs under try/except; if either per-axis curve_fit
call fails, the handler swallows the error and the whole state — fit
overlays, waist read-out and both history buffers — is left exactly as it
was, so history is only ever updated when both fits succeed. -/
theorem calc_waists_fit_failure (gexp : ℚ → ℚ)
    (curve_fit : List ℤ → Guess → Except Unit FitParams)
    (imdata : Frame) (aoi : AOI_rect) (st : WaistState)
    (hfail :
      curve_fit (sumAxis0 imdata)
        (npMax 0 (sumAxis0 imdata), np_argmax (sumAxis0 imdata), 0,
          (aoi.xmax - aoi.xmin) / 5) = Except.error () ∨
      curve_fit (sumAxis1 imdata)
        (npMax 0 (sumAxis1 imdata), np_argmax (sumAxis1 imdata), 0,
          (aoi.ymax - aoi.ymin) / 5) = Except.error ()) :
    calc_waists gexp curve_fit imdata aoi st = st := by
  unfold calc_waists
  rcases hfail with h | h
  · rw [h]
  · rw [h]
    cases curve_fit (sumAxis0 imdata)
      (npMax 0 (sumAxis0 imdata), np_argmax (sumAxis0 imdata), 0,
        (aoi.xmax - aoi.xmin) / 5) with
    | error e => rfl
    | ok px => rfl

/-- Witness for C3: an oracle that always fails to converge leaves a
concrete state untouched. -/
theorem calc_waists_fit_failure_witness :
    calc_waists id (fun _ _ => Except.error ()) [[1]] AOI_rect.init
      ⟨[1], [2], [3], [4], none⟩ = ⟨[1], [2], [3], [4], none⟩ :=
  calc_waists_fit_failure id (fun _ _ => Except.error ()) [[1]] AOI_rect.init
    ⟨[1], [2], [3], [4], none⟩ (Or.inl rfl)

/-- C4: on a successful fit the reported waist is the absolute value of
the fitted width parameter, and the value published to the read-out and
pushed into each history is that absolute width times the fixed pixel
pitch 5.2e-3 mm; 10 pixels convert to exactly 0.052 mm. -/
theorem waist_physical_conversion (gexp : ℚ → ℚ)
    (curve_fit : List ℤ → Guess → Except Unit FitParams)
    (imdata : Frame) (aoi : AOI_rect) (st : WaistState) (px py : FitParams)
    (hx : curve_fit (sumAxis0 imdata)
        (npMax 0 (sumAxis0 imdata), np_argmax (sumAxis0 imdata), 0,
          (aoi.xmax - aoi.xmin) / 5) = Except.ok px)
    (hy : curve_fit (sumAxis1 imdata)
        (npMax 0 (sumAxis1 imdata), np_argmax (sumAxis1 imdata), 0,
          (aoi.ymax - aoi.ymin) / 5) = Except.ok py) :
    (calc_waists gexp curve_fit imdata aoi st).waistText
        = some (|px.w| * pixel_size, |py.w| * pixel_size) ∧
    (calc_waists gexp curve_fit imdata aoi st).waistListX
        = pushWaist st.waistListX (|px.w| * pixel_size) ∧
    (calc_waists gexp curve_fit imdata aoi st).waistListY
        = pushWaist st.waistListY (|py.w| * pixel_size) ∧
    pixel_size = 5.2e-3 ∧ (10 : ℚ) * pixel_size = 0.052 := by
  unfold calc_waists
  rw [hx, hy]
  exact ⟨rfl, rfl, rfl, rfl, by norm_num [pixel_size]⟩

/-- Witness for C4: an oracle returning width -10 on both axes publishes
|−10| · 5.2e-3 = 0.052 mm on both axes. -/
theorem waist_physical_conversion_witness :
    (calc_waists id (fun _ _ => Except.ok ⟨1, 0, 0, -10⟩) [[1]] AOI_rect.init
      ⟨[], [], [], [], none⟩).waistText = some (0.052, 0.052) := by
  have h := waist_physical_conversion id (fun _ _ => Except.ok ⟨1, 0, 0, -10⟩)
    [[1]] AOI_rect.init ⟨[], [], [], [], none⟩ ⟨1, 0, 0, -10⟩ ⟨1, 0, 0, -10⟩ rfl rfl
  rw [h.1]
  norm_num [pixel_size]

/-- C5 counterexample: the set-AOI request {xmin = -5, xmax = 50, ymin = 0,
ymax = 50} against the default 1280×1024 AOI is not rejected: the handler
stores it verbatim, the previous rectangle is lost, and the stored xmin
violates 0 ≤ xmin. -/
theorem setAOI_accepts_invalid_rect :
    (On_set_AOI (-5, 50) (0, 50) AOI_rect.init).xmin = -5 ∧
    On_set_AOI (-5, 50) (0, 50) AOI_rect.init ≠ AOI_rect.init ∧
    ¬ (0 ≤ (On_set_AOI (-5, 50) (0, 50) AOI_rect.init).xmin) := by
  refine ⟨rfl, ?_, by norm_num [On_set_AOI]⟩
  intro h
  have hx : ((-5 : ℚ)) = 0 := congrArg AOI_rect.xmin h
  norm_num at hx

/-- C5 amended: the set-AOI handler performs no validation at all — it
stores the zoom-window limits verbatim, whatever they are (out-of-bounds
or zero-area rectangles included), and only the explicit reset restores
the full-sensor rectangle. -/
theorem setAOI_stores_unconditionally (xlim ylim : ℚ × ℚ) (prev : AOI_rect) :
    On_set_AOI xlim ylim prev
      = { xmin := xlim.1, xmax := xlim.2, ymin := ylim.1, ymax := ylim.2 } ∧
    On_reset_AOI prev = AOI_rect.init :=
  ⟨rfl, rfl⟩

/-- C6 counterexample: with current residual [[1]] and recorded background
[[2]], the main exported image is [[3]] — the raw frame
(residual + background) — not the residual [[1]], and the second exported
image is also [[3]], not the background [[2]]. -/
theorem saveFile_not_residual :
    (saveFileDialog [[1]] (some [[2]])).1 = [[3]] ∧
    (saveFileDialog [[1]] (some [[2]])).2 = some [[3]] ∧
    (saveFileDialog [[1]] (some [[2]])).1 ≠ [[1]] ∧
    (saveFileDialog [[1]] (some [[2]])).2 ≠ some [[2]] := by
  refine ⟨rfl, rfl, by decide, by decide⟩

/-- C6 amended: the export writes the raw frame — the current residual
plus the recorded background, cast to uint8 — and, when a background has
been recorded, a second image that duplicates that same raw frame
(the code saves img again) instead of the background; only when no
background has been recorded is the single written image the residual
itself. -/
theorem saveFile_behavior (full bg : Frame) :
    saveFileDialog full none = (full.map (fun r => r.map toUint8), none) ∧
    (saveFileDialog full (some bg)).1
      = (addBackground full bg).map (fun r => r.map toUint8) ∧
    (saveFileDialog full (some bg)).2 = some ((saveFileDialog full (some bg)).1) :=
  ⟨rfl, rfl, rfl⟩

/-- C7: the display rescaling divides by the projection maximum with no
guard.  On the all-zero projection (reachable: a frame equal to the
recorded background) the maximum is 0 and the code evaluates 255/0
(numpy: inf, the scaled entries become nan) instead of leaving the
sequence zero — normalize255 returns none exactly there.  When the
maximum is nonzero the division is performed and the maximal entry is
rescaled to 255, as on the concrete projection [2, 1]. -/
theorem normalize255_zero_max_divides_by_zero :
    npMax 0 (List.replicate 4 (0 : ℚ)) = 0 ∧
    normalize255 (List.replicate 4 (0 : ℚ)) = none ∧
    normalize255 [2, 1] = some [255, 255 / 2] := by
  refine ⟨rfl, rfl, ?_⟩
  norm_num [normalize255, npMax]

theorem exposure50_between_149_and_150 :
    0.037 * 149 < On_exposure_change 50 ∧ On_exposure_change 50 < 0.037 * 150 := by
  have hkey : ((10 : ℝ) ^ ((50 : ℝ) / 23)) ^ (23 : ℕ) = 10 ^ (50 : ℕ) := by
    rw [← Real.rpow_natCast ((10 : ℝ) ^ ((50 : ℝ) / 23)) 23,
      ← Real.rpow_mul (by norm_num)]
    norm_num
  have hpos : (0 : ℝ) < (10 : ℝ) ^ ((50 : ℝ) / 23) :=
    Real.rpow_pos_of_pos (by norm_num) _
  have h1 : (149 : ℝ) < (10 : ℝ) ^ ((50 : ℝ) / 23) := by
    apply lt_of_pow_lt_pow_left₀ 23 (le_of_lt hpos)
    rw [hkey]
    norm_num
  have h2 : (10 : ℝ) ^ ((50 : ℝ) / 23) < 150 := by
    apply lt_of_pow_lt_pow_left₀ 23 (by norm_num)
    rw [hkey]
    norm_num
  unfold On_exposure_change
  norm_num
  constructor <;> nlinarith

/-- C9 counterexample: the exposure forwarded at control value 50 is below
6 ms, so it is not approximately 6.51 ms (it misses that figure by about
one millisecond, far outside floating-point tolerance). -/
theorem exposure_at_50_not_6_51 : On_exposure_change 50 < 6 :=
  lt_of_lt_of_le exposure50_between_149_and_150.2 (by norm_num)

/-- C9 amended: the exposure forwarded to the camera is
0.037 × 10^(control/23) milliseconds; control = 50 maps to approximately
5.52 ms (strictly between 5.513 and 5.55), not 6.51 ms. -/
theorem exposure_mapping (control : ℕ) :
    On_exposure_change control = 0.037 * (10 : ℝ) ^ ((control : ℝ) / 23) ∧
    5.513 < On_exposure_change 50 ∧ On_exposure_change 50 < 5.55 := by
  refine ⟨rfl, ?_, ?_⟩
  · have h := exposure50_between_149_and_150.1
    calc (5.513 : ℝ) = 0.037 * 149 := by norm_num
    _ < On_exposure_change 50 := h
  · have h := exposure50_between_149_and_150.2
    calc On_exposure_change 50 < 0.037 * 150 := h
    _ = 5.55 := by norm_num

/-- C8: for a valid AOI of width w = xmax - xmin and height
h = ymax - ymin inside a rectangular sensor frame, the horizontal
projection (sum down each column of the crop) has length w and the
vertical projection (sum across each row) has length h. -/
theorem hv_projection_lengths (f : Frame) (W H ymin ymax xmin xmax : ℕ)
    (hH : f.length = H) (hrect : ∀ r ∈ f, r.length = W)
    (_hx1 : xmin < xmax) (hx2 : xmax ≤ W) (hy1 : ymin < ymax) (hy2 : ymax ≤ H) :
    (sumAxis0 (crop f ymin ymax xmin xmax)).length = xmax - xmin ∧
    (sumAxis1 (crop f ymin ymax xmin xmax)).length = ymax - ymin := by
  have hclen : (crop f ymin ymax xmin xmax).length = ymax - ymin :=
    crop_length f ymin ymax xmin xmax (by omega)
  constructor
  · refine sumAxis0_length _ (xmax - xmin) ?_ ?_
    · apply List.ne_nil_of_length_pos
      rw [hclen]
      omega
    · exact crop_row_length f W ymin ymax xmin xmax hrect hx2
  · rw [sumAxis1_length, hclen]

/-- Witness for C8: the full AOI of a 2×2 frame gives projections of
length 2 and 2. -/
theorem hv_projection_lengths_witness :
    (sumAxis0 (crop [[1, 2], [3, 4]] 0 2 0 2)).length = 2 - 0 ∧
    (sumAxis1 (crop [[1, 2], [3, 4]] 0 2 0 2)).length = 2 - 0 :=
  hv_projection_lengths [[1, 2], [3, 4]] 2 2 0 2 0 2 rfl (by decide)
    (by decide) (by decide) (by decide) (by decide)

/-- C10: the raw 1-D curves prepared for display are not the summed
projections: the horizontal curve is the single row, and the vertical
curve the single column, of the cropped frame through the pixel at the
row-major argmax (whose value is the global maximum of the frame), with
lengths equal to the AOI width and height; in each capture cycle the
summed projections are computed separately from these curves and feed
only the normalised overlay (and the fit input of calc_waists). -/
theorem raw_curves_through_argmax (f : Frame) (W : ℕ)
    (hne : f ≠ []) (hW : 0 < W) (hrect : ∀ r ∈ f, r.length = W) :
    (get1DIntensity_h f).length = W ∧
    (get1DIntensity_v f).length = f.length ∧
    get1DIntensity_h f = f.getD (np_argmax f.flatten / W) [] ∧
    get1DIntensity_v f = f.map (fun row => row.getD (np_argmax f.flatten % W) 0) ∧
    (get1DIntensity_h f).getD (maxXIndex f) 0 = npMax 0 f.flatten ∧
    (∀ y ∈ f.flatten, y ≤ (get1DIntensity_h f).getD (maxXIndex f) 0) ∧
    (∀ raw bg ymin ymax xmin xmax,
      (captureCycle raw bg ymin ymax xmin xmax).hdata
        = get1DIntensity_h ((captureCycle raw bg ymin ymax xmin xmax).imdata) ∧
      (captureCycle raw bg ymin ymax xmin xmax).vdata
        = get1DIntensity_v ((captureCycle raw bg ymin ymax xmin xmax).imdata) ∧
      (captureCycle raw bg ymin ymax xmin xmax).hint
        = normalize255
            ((sumAxis0 ((captureCycle raw bg ymin ymax xmin xmax).imdata)).map
              (fun z => (z : ℚ))) ∧
      (captureCycle raw bg ymin ymax xmin xmax).vint
        = normalize255
            ((sumAxis1 ((captureCycle raw bg ymin ymax xmin xmax).imdata)).map
              (fun z => (z : ℚ)))) := by
  have hwidth : imWidth f = W := by
    cases f with
    | nil => exact absurd rfl hne
    | cons r t => exact hrect r (by simp)
  have hflatlen : f.flatten.length = W * f.length := flatten_length_rect W f hrect
  have hflen : 0 < f.length := List.length_pos.mpr hne
  have hflatne : f.flatten ≠ [] := by
    apply List.ne_nil_of_length_pos
    rw [hflatlen]
    exact Nat.mul_pos hW hflen
  have hargmax := np_argmax_spec f.flatten hflatne
  have hidx : np_argmax f.flatten < W * f.length := hflatlen ▸ hargmax.1
  have hYlt : np_argmax f.flatten / W < f.length := Nat.div_lt_of_lt_mul hidx
  have hcurve_h : get1DIntensity_h f = f.getD (np_argmax f.flatten / W) [] := by
    simp [get1DIntensity_h, maxYIndex, hwidth]
  have hcurve_v :
      get1DIntensity_v f = f.map (fun row => row.getD (np_argmax f.flatten % W) 0) := by
    simp [get1DIntensity_v, maxXIndex, hwidth]
  have hmx : maxXIndex f = np_argmax f.flatten % W := by
    simp [maxXIndex, hwidth]
  have hrowmem : f.getD (np_argmax f.flatten / W) [] ∈ f := by
    rw [List.getD_eq_getElem f [] hYlt]
    exact List.getElem_mem hYlt
  have hmaxval : (get1DIntensity_h f).getD (maxXIndex f) 0 = npMax 0 f.flatten := by
    rw [hcurve_h, hmx, ← flatten_getD W hW f hrect (np_argmax f.flatten) hidx]
    exact hargmax.2
  refine ⟨?_, ?_, hcurve_h, hcurve_v, hmaxval, ?_, ?_⟩
  · rw [hcurve_h]
    exact hrect _ hrowmem
  · simp [get1DIntensity_v]
  · intro y hy
    rw [hmaxval]
    exact le_npMax f.flatten y hy
  · intro raw bg ymin ymax xmin xmax
    exact ⟨rfl, rfl, rfl, rfl⟩

/-- Witness for C10 on the concrete 2×2 frame [[1,2],[3,4]]: the argmax
pixel is 4 at row 1, column 1, so the horizontal curve is the row [3,4]
and the vertical curve the column [2,4], each of length 2. -/
theorem raw_curves_through_argmax_witness :
    (get1DIntensity_h [[1, 2], [3, 4]]).length = 2 ∧
    get1DIntensity_h [[1, 2], [3, 4]] = [3, 4] ∧
    get1DIntensity_v [[1, 2], [3, 4]] = [2, 4] := by
  have h := raw_curves_through_argmax [[1, 2], [3, 4]] 2 (by decide) (by decide)
    (by decide)
  exact ⟨h.1, by decide, by decide⟩

end BeamProfiler
